import Mathlib

/-
  Shallow embedding of the Move modules fit_social::challenge and
  fit_social::escrow (src/unnamed/part_005).

  Conventions of the embedding:
  * Addresses (Move address) are Nat; byte strings (vector<u8>) are List Nat.
  * Move u64 arithmetic aborts on overflow (it never wraps); it is embedded
    as unbounded Nat, so every non-aborting Move execution is reproduced
    exactly, and no value is ever reduced modulo 2^64.
  * Move transactions are atomic: any abort (assert! failure, missing table
    key, insufficient coin balance) rolls back the whole transaction.  Each
    entry function is therefore a pure function GState -> Except Err GState:
    an .error result is an aborted transaction and leaves no state change.
  * aptos_std::table is embedded as a function Nat -> Option _ (resp.
    Addr -> Option Submission); table::borrow on a missing key aborts,
    which surfaces as Err.NotFound.
  * The AptosCoin ledger is split into the user accounts (accounts : Addr
    -> Nat) and the escrow resource account balance (custody : Nat); the
    resource account address is distinct from every user address.
    coin::withdraw aborts when the source balance is insufficient
    (Err.InsufficientFunds); a per-winner withdrawal loop succeeds exactly
    when the custody balance covers the total withdrawn, so the loops in
    escrow::distribute_rewards / escrow::refund_challenge are embedded with
    a single upfront custody check equivalent to the loop aborting midway.
  * The state starts after both initialize calls have run (registry and
    escrow published at @fit_social), with arbitrary initial user balances.
-/

/-- Move address, embedded as Nat. -/
abbrev Addr := Nat

/-- Typed abort reasons; names follow the specification, each corresponding
to an abort code or aborting primitive of the Move source:
NotActive = E_CHALLENGE_INACTIVE, Expired = E_CHALLENGE_EXPIRED,
NotEnded = E_CHALLENGE_NOT_ENDED, AlreadyJoined = E_ALREADY_JOINED,
NotParticipant = E_NOT_PARTICIPANT, AlreadySubmitted = E_ALREADY_SUBMITTED,
NoSubmission = E_NO_SUBMISSION, AlreadyVoted = E_ALREADY_VOTED,
AlreadyDistributed = E_REWARDS_ALREADY_DISTRIBUTED,
NotAuthorized = E_NOT_AUTHORIZED, NotInitialized = E_NOT_INITIALIZED,
InsufficientBalance = E_INSUFFICIENT_BALANCE, InvalidAmount =
E_INVALID_AMOUNT, InsufficientFunds = coin::withdraw abort, NotFound =
table::borrow abort on a missing key. -/
inductive Err : Type where
  | NotAuthorized
  | NotActive
  | Expired
  | NotEnded
  | AlreadyJoined
  | NotParticipant
  | AlreadySubmitted
  | NoSubmission
  | AlreadyVoted
  | AlreadyDistributed
  | NotInitialized
  | InsufficientBalance
  | InvalidAmount
  | InsufficientFunds
  | NotFound
deriving DecidableEq, Repr

/-- Pointwise update of a map with Nat keys (table / coin ledger update). -/
def fupdate {α : Type} (k : Nat) (v : α) (f : Nat → α) : Nat → α :=
  fun j => if j = k then v else f j

/-- struct Submission (part_005 lines 39-46). -/
structure Submission : Type where
  proof_uri : List Nat
  timestamp : Nat
  votes_for : Nat
  votes_against : Nat
  voters : List Addr
  is_verified : Bool

/-- struct Challenge (part_005 lines 24-37); the submissions Table is a
function from participant address to Option Submission. -/
structure Challenge : Type where
  id : Nat
  creator : Addr
  name : List Nat
  description : List Nat
  entry_fee : Nat
  start_time : Nat
  end_time : Nat
  participants : List Addr
  submissions : Addr → Option Submission
  total_pool : Nat
  is_active : Bool
  rewards_distributed : Bool

/-- struct EscrowAccount (part_005 lines 384-391). -/
structure EscrowAccount : Type where
  balances : Nat → Option Nat
  platform_fees : Nat
  admin : Addr

/-- The whole committed on-chain state the two modules touch: the
ChallengeRegistry at @fit_social, the EscrowAccount at @fit_social, the
user AptosCoin balances and the escrow resource account balance. -/
structure GState : Type where
  challenges : Nat → Option Challenge
  next_id : Nat
  escrow : EscrowAccount
  accounts : Addr → Nat
  custody : Nat

/-- escrow::deposit (part_005 lines 418-442): assert amount > 0, withdraw
from the payer, deposit to the resource account, bump the per-challenge
accumulator (creating it when absent). -/
def escrow_deposit (payer : Addr) (challenge_id amount : Nat) (st : GState) :
    Except Err GState :=
  if amount = 0 then .error .InvalidAmount
  else if st.accounts payer < amount then .error .InsufficientFunds
  else .ok { st with
    accounts := fupdate payer (st.accounts payer - amount) st.accounts,
    custody := st.custody + amount,
    escrow := { st.escrow with
      balances := fupdate challenge_id
        (some ((st.escrow.balances challenge_id).getD 0 + amount))
        st.escrow.balances } }

/-- The per-winner payment loop of escrow::distribute_rewards and the
per-participant loop of escrow::refund_challenge: credit amount to each
listed address in order. -/
def credit_all (ws : List Addr) (amount : Nat) (acc : Addr → Nat) : Addr → Nat :=
  match ws with
  | [] => acc
  | w :: rest => credit_all rest amount (fupdate w (acc w + amount) acc)

/-- escrow::distribute_rewards (part_005 lines 445-486): requires an
accumulator entry covering total_pool, credits the 5 percent platform fee,
pays floor(prize_pool / n) to each of the n winners when n > 0, and zeroes
the accumulator. -/
def escrow_distribute (challenge_id : Nat) (winners : List Addr)
    (total_pool : Nat) (st : GState) : Except Err GState :=
  match st.escrow.balances challenge_id with
  | none => .error .NotInitialized
  | some escrowed =>
    if escrowed < total_pool then .error .InsufficientBalance
    else
      let platform_fee := total_pool * 5 / 100
      let prize_pool := total_pool - platform_fee
      if winners.length = 0 then
        .ok { st with escrow := { st.escrow with
          balances := fupdate challenge_id (some 0) st.escrow.balances,
          platform_fees := st.escrow.platform_fees + platform_fee } }
      else
        let payout := prize_pool / winners.length
        if st.custody < winners.length * payout then .error .InsufficientFunds
        else .ok { st with
          accounts := credit_all winners payout st.accounts,
          custody := st.custody - winners.length * payout,
          escrow := { st.escrow with
            balances := fupdate challenge_id (some 0) st.escrow.balances,
            platform_fees := st.escrow.platform_fees + platform_fee } }

/-- escrow::refund_challenge (part_005 lines 489-515): pay entry_fee to
every listed participant, then zero the accumulator when it exists. -/
def escrow_refund (challenge_id : Nat) (participants : List Addr)
    (entry_fee : Nat) (st : GState) : Except Err GState :=
  if st.custody < participants.length * entry_fee then .error .InsufficientFunds
  else .ok { st with
    accounts := credit_all participants entry_fee st.accounts,
    custody := st.custody - participants.length * entry_fee,
    escrow := { st.escrow with
      balances := fupdate challenge_id
        ((st.escrow.balances challenge_id).map (fun _ => 0))
        st.escrow.balances } }

/-- escrow::withdraw_platform_fees (part_005 lines 518-537). -/
def withdraw_platform_fees (admin amount : Nat) (st : GState) :
    Except Err GState :=
  if admin ≠ st.escrow.admin then .error .NotAuthorized
  else if st.escrow.platform_fees < amount then .error .InsufficientBalance
  else if st.custody < amount then .error .InsufficientFunds
  else .ok { st with
    escrow := { st.escrow with
      platform_fees := st.escrow.platform_fees - amount },
    custody := st.custody - amount,
    accounts := fupdate admin (st.accounts admin + amount) st.accounts }

/-- challenge::create_challenge (part_005 lines 65-95): always succeeds,
allocates the next sequential id, end_time = now + duration_days * 86400. -/
def create_challenge (creator : Addr) (name description : List Nat)
    (entry_fee duration_days now : Nat) (st : GState) : Except Err GState :=
  .ok { st with
    challenges := fupdate st.next_id (some {
      id := st.next_id,
      creator := creator,
      name := name,
      description := description,
      entry_fee := entry_fee,
      start_time := now,
      end_time := now + duration_days * 86400,
      participants := [],
      submissions := fun _ => none,
      total_pool := 0,
      is_active := true,
      rewards_distributed := false }) st.challenges,
    next_id := st.next_id + 1 }

/-- challenge::join_challenge (part_005 lines 99-118). -/
def join_challenge (participant : Addr) (challenge_id now : Nat)
    (st : GState) : Except Err GState :=
  match st.challenges challenge_id with
  | none => .error .NotFound
  | some c =>
    if c.is_active = false then .error .NotActive
    else if c.end_time ≤ now then .error .Expired
    else if participant ∈ c.participants then .error .AlreadyJoined
    else match escrow_deposit participant challenge_id c.entry_fee st with
      | .error e => .error e
      | .ok st1 => .ok { st1 with
          challenges := fupdate challenge_id (some { c with
            participants := c.participants ++ [participant],
            total_pool := c.total_pool + c.entry_fee }) st1.challenges }

/-- challenge::submit_proof (part_005 lines 121-144). -/
def submit_proof (participant : Addr) (challenge_id : Nat)
    (proof_uri : List Nat) (now : Nat) (st : GState) : Except Err GState :=
  match st.challenges challenge_id with
  | none => .error .NotFound
  | some c =>
    if participant ∉ c.participants then .error .NotParticipant
    else if (c.submissions participant).isSome then .error .AlreadySubmitted
    else .ok { st with
      challenges := fupdate challenge_id (some { c with
        submissions := fupdate participant (some {
          proof_uri := proof_uri,
          timestamp := now,
          votes_for := 0,
          votes_against := 0,
          voters := [],
          is_verified := false }) c.submissions }) st.challenges }

/-- The submission mutation inside challenge::vote (part_005 lines
161-174): record the voter, bump one counter, latch is_verified when
votes_for > votes_against + 3. -/
def apply_vote (voter : Addr) (approve : Bool) (sub : Submission) :
    Except Err Submission :=
  if voter ∈ sub.voters then .error .AlreadyVoted
  else
    let s1 : Submission := { sub with
      voters := sub.voters ++ [voter],
      votes_for := if approve then sub.votes_for + 1 else sub.votes_for,
      votes_against := if approve then sub.votes_against
        else sub.votes_against + 1 }
    .ok (if s1.votes_against + 3 < s1.votes_for then
      { s1 with is_verified := true } else s1)

/-- challenge::vote (part_005 lines 147-175). -/
def vote (voter : Addr) (challenge_id : Nat) (participant : Addr)
    (approve : Bool) (st : GState) : Except Err GState :=
  match st.challenges challenge_id with
  | none => .error .NotFound
  | some c =>
    match c.submissions participant with
    | none => .error .NoSubmission
    | some sub =>
      match apply_vote voter approve sub with
      | .error e => .error e
      | .ok sub1 => .ok { st with
          challenges := fupdate challenge_id (some { c with
            submissions := fupdate participant (some sub1) c.submissions })
            st.challenges }

/-- Whether a participant has a verified submission (the body of the
winner-collecting loop, part_005 lines 197-202). -/
def is_winner (c : Challenge) (p : Addr) : Bool :=
  match c.submissions p with
  | some s => s.is_verified
  | none => false

/-- The winner-collecting loop of challenge::distribute_rewards (part_005
lines 190-205): roster members with a verified submission, in roster
order. -/
def verified_winners (c : Challenge) : List Addr :=
  c.participants.filter (is_winner c)

/-- challenge::distribute_rewards (part_005 lines 179-212). -/
def distribute_rewards (challenge_id now : Nat) (st : GState) :
    Except Err GState :=
  match st.challenges challenge_id with
  | none => .error .NotFound
  | some c =>
    if now ≤ c.end_time then .error .NotEnded
    else if c.rewards_distributed then .error .AlreadyDistributed
    else match escrow_distribute challenge_id (verified_winners c)
        c.total_pool st with
      | .error e => .error e
      | .ok st1 => .ok { st1 with
          challenges := fupdate challenge_id (some { c with
            rewards_distributed := true,
            is_active := false }) st1.challenges }

/-- challenge::cancel_challenge (part_005 lines 216-237). -/
def cancel_challenge (caller : Addr) (challenge_id : Nat) (st : GState) :
    Except Err GState :=
  match st.challenges challenge_id with
  | none => .error .NotFound
  | some c =>
    if c.creator ≠ caller then .error .NotAuthorized
    else if c.is_active = false then .error .NotActive
    else if c.rewards_distributed then .error .AlreadyDistributed
    else match escrow_refund challenge_id c.participants c.entry_fee st with
      | .error e => .error e
      | .ok st1 => .ok { st1 with
          challenges := fupdate challenge_id (some { c with
            is_active := false }) st1.challenges }

/-- challenge::get_challenge_details (part_005 lines 241-257); a view
function, a pure read of the committed state. -/
def get_challenge_details (challenge_id : Nat) (st : GState) :
    Except Err (Addr × List Nat × List Nat × Nat × Nat × Nat × Nat × Bool) :=
  match st.challenges challenge_id with
  | none => .error .NotFound
  | some c => .ok (c.creator, c.name, c.description, c.entry_fee,
      c.start_time, c.end_time, c.total_pool, c.is_active)

/-- challenge::get_participant_count (part_005 lines 259-264). -/
def get_participant_count (challenge_id : Nat) (st : GState) :
    Except Err Nat :=
  match st.challenges challenge_id with
  | none => .error .NotFound
  | some c => .ok c.participants.length

/-- challenge::is_participant (part_005 lines 266-271). -/
def is_participant (challenge_id : Nat) (addr : Addr) (st : GState) :
    Except Err Bool :=
  match st.challenges challenge_id with
  | none => .error .NotFound
  | some c => .ok (c.participants.contains addr)

/-- challenge::has_submitted (part_005 lines 273-278). -/
def has_submitted (challenge_id : Nat) (addr : Addr) (st : GState) :
    Except Err Bool :=
  match st.challenges challenge_id with
  | none => .error .NotFound
  | some c => .ok (c.submissions addr).isSome

/-- challenge::get_submission_votes (part_005 lines 280-289). -/
def get_submission_votes (challenge_id : Nat) (participant : Addr)
    (st : GState) : Except Err (Nat × Nat × Bool) :=
  match st.challenges challenge_id with
  | none => .error .NotFound
  | some c =>
    match c.submissions participant with
    | none => .error .NotFound
    | some s => .ok (s.votes_for, s.votes_against, s.is_verified)

/-- The committed state right after challenge::initialize and
escrow::initialize have run at @fit_social: empty registry, empty escrow
table, zero fees, fresh resource account, arbitrary user balances. -/
def init_state (admin : Addr) (accounts0 : Addr → Nat) : GState :=
  { challenges := fun _ => none,
    next_id := 0,
    escrow := { balances := fun _ => none, platform_fees := 0, admin := admin },
    accounts := accounts0,
    custody := 0 }

/-- Committed states reachable from a freshly initialized deployment by
the public operations of the two modules. -/
inductive Reachable : GState → Prop where
  | init (admin : Addr) (accounts0 : Addr → Nat) :
      Reachable (init_state admin accounts0)
  | create {st st' : GState} (creator : Addr) (name description : List Nat)
      (entry_fee duration_days now : Nat) (h1 : Reachable st)
      (h2 : create_challenge creator name description entry_fee duration_days
        now st = .ok st') : Reachable st'
  | join {st st' : GState} (participant : Addr) (challenge_id now : Nat)
      (h1 : Reachable st)
      (h2 : join_challenge participant challenge_id now st = .ok st') :
      Reachable st'
  | submit {st st' : GState} (participant : Addr) (challenge_id : Nat)
      (proof_uri : List Nat) (now : Nat) (h1 : Reachable st)
      (h2 : submit_proof participant challenge_id proof_uri now st = .ok st') :
      Reachable st'
  | vote_step {st st' : GState} (voter : Addr) (challenge_id : Nat)
      (participant : Addr) (approve : Bool) (h1 : Reachable st)
      (h2 : vote voter challenge_id participant approve st = .ok st') :
      Reachable st'
  | distribute {st st' : GState} (challenge_id now : Nat) (h1 : Reachable st)
      (h2 : distribute_rewards challenge_id now st = .ok st') : Reachable st'
  | cancel {st st' : GState} (caller : Addr) (challenge_id : Nat)
      (h1 : Reachable st)
      (h2 : cancel_challenge caller challenge_id st = .ok st') : Reachable st'
  | withdraw {st st' : GState} (admin amount : Nat) (h1 : Reachable st)
      (h2 : withdraw_platform_fees admin amount st = .ok st') : Reachable st'

/-- Reading an updated map at the updated key. -/
theorem fupdate_self {α : Type} (k : Nat) (v : α) (f : Nat → α) :
    fupdate k v f k = v := by
  simp [fupdate]

/-- Reading an updated map away from the updated key. -/
theorem fupdate_ne {α : Type} (k : Nat) (v : α) (f : Nat → α) (j : Nat)
    (h : j ≠ k) : fupdate k v f j = f j := by
  simp [fupdate, h]

/-- credit_all leaves an unlisted address untouched. -/
theorem credit_all_not_mem (ws : List Addr) (amount : Nat) (a : Addr) :
    ∀ acc : Addr → Nat, a ∉ ws → credit_all ws amount acc a = acc a := by
  induction ws with
  | nil => intro acc _; rfl
  | cons w rest ih =>
    intro acc h
    simp only [List.mem_cons, not_or] at h
    simp only [credit_all]
    rw [ih _ h.2, fupdate_ne _ _ _ _ h.1]

/-- credit_all pays each address of a duplicate-free list exactly once. -/
theorem credit_all_mem (ws : List Addr) (amount : Nat) (a : Addr) :
    ∀ acc : Addr → Nat, ws.Nodup → a ∈ ws →
    credit_all ws amount acc a = acc a + amount := by
  induction ws with
  | nil => intro acc _ h; cases h
  | cons w rest ih =>
    intro acc hnd h
    simp only [List.nodup_cons] at hnd
    simp only [credit_all]
    rcases List.mem_cons.mp h with rfl | hmem
    · rw [credit_all_not_mem _ _ _ _ hnd.1, fupdate_self]
    · have hne : a ≠ w := fun he => hnd.1 (he ▸ hmem)
      rw [ih _ hnd.2 hmem, fupdate_ne _ _ _ _ hne]

/-- Total amount escrowed across the challenge ids allocated so far. -/
def sumBal (st : GState) : Nat :=
  ∑ i ∈ Finset.range st.next_id, (st.escrow.balances i).getD 0

/-- Exchanging one summand of a range sum against a pointwise-equal map. -/
theorem sum_swap_at (n k : Nat) (f g : Nat → Nat)
    (hfg : ∀ i, i ≠ k → f i = g i) (hk : k < n) :
    (∑ i ∈ Finset.range n, f i) + g k =
      (∑ i ∈ Finset.range n, g i) + f k := by
  have hkmem : k ∈ Finset.range n := Finset.mem_range.mpr hk
  have hf := Finset.sum_erase_add (Finset.range n) f hkmem
  have hg := Finset.sum_erase_add (Finset.range n) g hkmem
  have heq : (∑ i ∈ (Finset.range n).erase k, f i) =
      ∑ i ∈ (Finset.range n).erase k, g i := by
    refine Finset.sum_congr rfl (fun i hi => ?_)
    exact hfg i (Finset.ne_of_mem_erase hi)
  omega

/-- A single accumulator is bounded by the total escrowed sum. -/
theorem single_le_sumBal (st : GState) (k : Nat) (hk : k < st.next_id) :
    (st.escrow.balances k).getD 0 ≤ sumBal st := by
  exact Finset.single_le_sum (f := fun i => (st.escrow.balances i).getD 0)
    (fun i _ => Nat.zero_le _) (Finset.mem_range.mpr hk)

/-- Per-challenge facts maintained by every committed state: ids are below
the allocation counter, the roster is duplicate-free, fees are positive
once anyone has joined, the pool accounts for the roster, the escrow
accumulator tracks the pool until a terminal transition zeroes it, and
each submission's tallies add up to its voter set. -/
structure ChallengeOk (st : GState) (id : Nat) (c : Challenge) : Prop where
  lt : id < st.next_id
  nodup : c.participants.Nodup
  fee_pos : c.participants ≠ [] → 0 < c.entry_fee
  pool_eq : c.rewards_distributed = false →
    c.total_pool = c.entry_fee * c.participants.length
  bal_act : c.is_active = true → c.rewards_distributed = false →
    st.escrow.balances id =
      (if c.total_pool = 0 then none else some c.total_pool)
  bal_cancel : c.is_active = false → c.rewards_distributed = false →
    st.escrow.balances id = (if c.total_pool = 0 then none else some 0)
  votes_eq : ∀ p s, c.submissions p = some s →
    s.voters.length = s.votes_for + s.votes_against
  dist_inactive : c.rewards_distributed = true → c.is_active = false

/-- The global state invariant: every registered challenge is well formed,
unallocated ids carry no challenge and no escrow accumulator, and the
resource account covers every accumulator plus the accrued fees. -/
structure StateInv (st : GState) : Prop where
  chal_ok : ∀ id c, st.challenges id = some c → ChallengeOk st id c
  fresh_chal : ∀ id, st.next_id ≤ id → st.challenges id = none
  fresh_bal : ∀ id, st.next_id ≤ id → st.escrow.balances id = none
  custody_ge : sumBal st + st.escrow.platform_fees ≤ st.custody

/-- Success shape of escrow::deposit. -/
theorem escrow_deposit_ok {payer cid amount : Nat} {st st' : GState}
    (h : escrow_deposit payer cid amount st = .ok st') :
    0 < amount ∧ amount ≤ st.accounts payer ∧
    st' = { st with
      accounts := fupdate payer (st.accounts payer - amount) st.accounts,
      custody := st.custody + amount,
      escrow := { st.escrow with
        balances := fupdate cid
          (some ((st.escrow.balances cid).getD 0 + amount))
          st.escrow.balances } } := by
  unfold escrow_deposit at h
  split at h
  · simp at h
  next h1 =>
    split at h
    · simp at h
    next h2 =>
      simp only [Except.ok.injEq] at h
      exact ⟨Nat.pos_of_ne_zero h1, Nat.le_of_not_lt h2, h.symm⟩

/-- Success shape of escrow::distribute_rewards. -/
theorem escrow_distribute_ok {cid : Nat} {winners : List Addr}
    {total_pool : Nat} {st st' : GState}
    (h : escrow_distribute cid winners total_pool st = .ok st') :
    ∃ escrowed, st.escrow.balances cid = some escrowed ∧
      total_pool ≤ escrowed ∧
      (winners.length = 0 →
        st' = { st with escrow := { st.escrow with
          balances := fupdate cid (some 0) st.escrow.balances,
          platform_fees :=
            st.escrow.platform_fees + total_pool * 5 / 100 } }) ∧
      (winners.length ≠ 0 →
        winners.length *
            ((total_pool - total_pool * 5 / 100) / winners.length) ≤
          st.custody ∧
        st' = { st with
          accounts := credit_all winners
            ((total_pool - total_pool * 5 / 100) / winners.length)
            st.accounts,
          custody := st.custody - winners.length *
            ((total_pool - total_pool * 5 / 100) / winners.length),
          escrow := { st.escrow with
            balances := fupdate cid (some 0) st.escrow.balances,
            platform_fees :=
              st.escrow.platform_fees + total_pool * 5 / 100 } }) := by
  unfold escrow_distribute at h
  split at h
  · simp at h
  next escrowed hbal =>
    refine ⟨escrowed, hbal, ?_⟩
    split at h
    · simp at h
    next h1 =>
      refine ⟨Nat.le_of_not_lt h1, ?_⟩
      split at h
      next hn =>
        simp only [Except.ok.injEq] at h
        exact ⟨fun _ => h.symm, fun hc => absurd hn hc⟩
      next hn =>
        dsimp only at h
        split at h
        · simp at h
        next h2 =>
          simp only [Except.ok.injEq] at h
          exact ⟨fun hc => absurd hc hn,
            fun _ => ⟨Nat.le_of_not_lt h2, h.symm⟩⟩

/-- Success shape of escrow::refund_challenge. -/
theorem escrow_refund_ok {cid : Nat} {participants : List Addr}
    {entry_fee : Nat} {st st' : GState}
    (h : escrow_refund cid participants entry_fee st = .ok st') :
    participants.length * entry_fee ≤ st.custody ∧
    st' = { st with
      accounts := credit_all participants entry_fee st.accounts,
      custody := st.custody - participants.length * entry_fee,
      escrow := { st.escrow with
        balances := fupdate cid
          ((st.escrow.balances cid).map (fun _ => 0))
          st.escrow.balances } } := by
  unfold escrow_refund at h
  split at h
  · simp at h
  next h1 =>
    simp only [Except.ok.injEq] at h
    exact ⟨Nat.le_of_not_lt h1, h.symm⟩

/-- Success shape of escrow::withdraw_platform_fees. -/
theorem withdraw_platform_fees_ok {admin amount : Nat} {st st' : GState}
    (h : withdraw_platform_fees admin amount st = .ok st') :
    admin = st.escrow.admin ∧ amount ≤ st.escrow.platform_fees ∧
    amount ≤ st.custody ∧
    st' = { st with
      escrow := { st.escrow with
        platform_fees := st.escrow.platform_fees - amount },
      custody := st.custody - amount,
      accounts := fupdate admin (st.accounts admin + amount) st.accounts } := by
  unfold withdraw_platform_fees at h
  split at h
  · simp at h
  next h1 =>
    split at h
    · simp at h
    next h2 =>
      split at h
      · simp at h
      next h3 =>
        simp only [Except.ok.injEq] at h
        exact ⟨not_ne_iff.mp h1, Nat.le_of_not_lt h2, Nat.le_of_not_lt h3,
          h.symm⟩

/-- Success shape of challenge::create_challenge. -/
theorem create_challenge_ok {creator : Addr} {name description : List Nat}
    {entry_fee duration_days now : Nat} {st st' : GState}
    (h : create_challenge creator name description entry_fee duration_days
      now st = .ok st') :
    st' = { st with
      challenges := fupdate st.next_id (some {
        id := st.next_id,
        creator := creator,
        name := name,
        description := description,
        entry_fee := entry_fee,
        start_time := now,
        end_time := now + duration_days * 86400,
        participants := [],
        submissions := fun _ => none,
        total_pool := 0,
        is_active := true,
        rewards_distributed := false }) st.challenges,
      next_id := st.next_id + 1 } := by
  unfold create_challenge at h
  simp only [Except.ok.injEq] at h
  exact h.symm

/-- Success shape of challenge::join_challenge. -/
theorem join_challenge_ok {p : Addr} {cid now : Nat} {st st' : GState}
    {c : Challenge} (hc : st.challenges cid = some c)
    (h : join_challenge p cid now st = .ok st') :
    c.is_active = true ∧ now < c.end_time ∧ p ∉ c.participants ∧
    0 < c.entry_fee ∧ c.entry_fee ≤ st.accounts p ∧
    st' = { st with
      challenges := fupdate cid (some { c with
        participants := c.participants ++ [p],
        total_pool := c.total_pool + c.entry_fee }) st.challenges,
      accounts := fupdate p (st.accounts p - c.entry_fee) st.accounts,
      custody := st.custody + c.entry_fee,
      escrow := { st.escrow with
        balances := fupdate cid
          (some ((st.escrow.balances cid).getD 0 + c.entry_fee))
          st.escrow.balances } } := by
  unfold join_challenge at h
  rw [hc] at h
  simp only at h
  split at h
  · simp at h
  next h1 =>
    split at h
    · simp at h
    next h2 =>
      split at h
      · simp at h
      next h3 =>
        cases hd : escrow_deposit p cid c.entry_fee st with
        | error e => rw [hd] at h; simp at h
        | ok st1 =>
          rw [hd] at h
          simp only [Except.ok.injEq] at h
          obtain ⟨hpos, hfund, h1eq⟩ := escrow_deposit_ok hd
          subst h1eq
          refine ⟨Bool.not_eq_false _ ▸ h1, Nat.lt_of_not_le h2, h3, hpos,
            hfund, ?_⟩
          exact h.symm

/-- Success shape of challenge::submit_proof. -/
theorem submit_proof_ok {p : Addr} {cid : Nat} {uri : List Nat} {now : Nat}
    {st st' : GState} {c : Challenge} (hc : st.challenges cid = some c)
    (h : submit_proof p cid uri now st = .ok st') :
    p ∈ c.participants ∧ c.submissions p = none ∧
    st' = { st with
      challenges := fupdate cid (some { c with
        submissions := fupdate p (some {
          proof_uri := uri,
          timestamp := now,
          votes_for := 0,
          votes_against := 0,
          voters := [],
          is_verified := false }) c.submissions }) st.challenges } := by
  unfold submit_proof at h
  rw [hc] at h
  simp only at h
  split at h
  · simp at h
  next h1 =>
    split at h
    · simp at h
    next h2 =>
      simp only [Except.ok.injEq] at h
      exact ⟨not_not.mp h1, Option.not_isSome_iff_eq_none.mp h2, h.symm⟩

/-- Success shape of the vote mutation on one submission. -/
theorem apply_vote_ok {voter : Addr} {approve : Bool} {sub sub' : Submission}
    (h : apply_vote voter approve sub = .ok sub') :
    voter ∉ sub.voters ∧
    sub'.voters = sub.voters ++ [voter] ∧
    sub'.proof_uri = sub.proof_uri ∧ sub'.timestamp = sub.timestamp ∧
    (approve = true → sub'.votes_for = sub.votes_for + 1 ∧
      sub'.votes_against = sub.votes_against) ∧
    (approve = false → sub'.votes_for = sub.votes_for ∧
      sub'.votes_against = sub.votes_against + 1) ∧
    sub'.is_verified =
      (if sub'.votes_against + 3 < sub'.votes_for then true
        else sub.is_verified) := by
  unfold apply_vote at h
  split at h
  · simp at h
  next h1 =>
    dsimp only at h
    simp only [Except.ok.injEq] at h
    cases approve with
    | true =>
      simp only [if_true] at h
      split at h
      next hlt =>
        subst h
        refine ⟨h1, rfl, rfl, rfl, ?_, ?_, ?_⟩
        · intro _; exact ⟨rfl, rfl⟩
        · intro habs; exact absurd habs (by decide)
        · exact (if_pos hlt).symm
      next hlt =>
        subst h
        refine ⟨h1, rfl, rfl, rfl, ?_, ?_, ?_⟩
        · intro _; exact ⟨rfl, rfl⟩
        · intro habs; exact absurd habs (by decide)
        · exact (if_neg hlt).symm
    | false =>
      simp only [Bool.false_eq_true, if_false] at h
      split at h
      next hlt =>
        subst h
        refine ⟨h1, rfl, rfl, rfl, ?_, ?_, ?_⟩
        · intro habs; exact absurd habs (by decide)
        · intro _; exact ⟨rfl, rfl⟩
        · exact (if_pos hlt).symm
      next hlt =>
        subst h
        refine ⟨h1, rfl, rfl, rfl, ?_, ?_, ?_⟩
        · intro habs; exact absurd habs (by decide)
        · intro _; exact ⟨rfl, rfl⟩
        · exact (if_neg hlt).symm

/-- Success shape of challenge::vote. -/
theorem vote_ok {voter : Addr} {cid : Nat} {p : Addr} {approve : Bool}
    {st st' : GState} {c : Challenge} (hc : st.challenges cid = some c)
    (h : vote voter cid p approve st = .ok st') :
    ∃ sub sub', c.submissions p = some sub ∧
      apply_vote voter approve sub = .ok sub' ∧
      st' = { st with
        challenges := fupdate cid (some { c with
          submissions := fupdate p (some sub') c.submissions })
          st.challenges } := by
  unfold vote at h
  rw [hc] at h
  simp only at h
  cases hs : c.submissions p with
  | none => rw [hs] at h; simp at h
  | some sub =>
    rw [hs] at h
    simp only at h
    cases ha : apply_vote voter approve sub with
    | error e => rw [ha] at h; simp at h
    | ok sub1 =>
      rw [ha] at h
      simp only [Except.ok.injEq] at h
      exact ⟨sub, sub1, rfl, ha, h.symm⟩

/-- Success shape of challenge::distribute_rewards. -/
theorem distribute_rewards_ok {cid now : Nat} {st st' : GState}
    {c : Challenge} (hc : st.challenges cid = some c)
    (h : distribute_rewards cid now st = .ok st') :
    c.end_time < now ∧ c.rewards_distributed = false ∧
    ∃ st1, escrow_distribute cid (verified_winners c) c.total_pool st =
        .ok st1 ∧
      st' = { st1 with
        challenges := fupdate cid (some { c with
          rewards_distributed := true,
          is_active := false }) st1.challenges } := by
  unfold distribute_rewards at h
  rw [hc] at h
  simp only at h
  split at h
  · simp at h
  next h1 =>
    split at h
    · simp at h
    next h2 =>
      cases hd : escrow_distribute cid (verified_winners c) c.total_pool st
        with
      | error e => rw [hd] at h; simp at h
      | ok st1 =>
        rw [hd] at h
        simp only [Except.ok.injEq] at h
        exact ⟨Nat.lt_of_not_le h1, Bool.not_eq_true _ ▸ h2,
          st1, rfl, h.symm⟩

/-- Success shape of challenge::cancel_challenge. -/
theorem cancel_challenge_ok {caller : Addr} {cid : Nat} {st st' : GState}
    {c : Challenge} (hc : st.challenges cid = some c)
    (h : cancel_challenge caller cid st = .ok st') :
    c.creator = caller ∧ c.is_active = true ∧
    c.rewards_distributed = false ∧
    c.participants.length * c.entry_fee ≤ st.custody ∧
    st' = { st with
      challenges := fupdate cid (some { c with is_active := false })
        st.challenges,
      accounts := credit_all c.participants c.entry_fee st.accounts,
      custody := st.custody - c.participants.length * c.entry_fee,
      escrow := { st.escrow with
        balances := fupdate cid
          ((st.escrow.balances cid).map (fun _ => 0))
          st.escrow.balances } } := by
  unfold cancel_challenge at h
  rw [hc] at h
  simp only at h
  split at h
  · simp at h
  next h1 =>
    split at h
    · simp at h
    next h2 =>
      split at h
      · simp at h
      next h3 =>
        cases hr : escrow_refund cid c.participants c.entry_fee st with
        | error e => rw [hr] at h; simp at h
        | ok st1 =>
          rw [hr] at h
          simp only [Except.ok.injEq] at h
          obtain ⟨hcust, h1eq⟩ := escrow_refund_ok hr
          subst h1eq
          exact ⟨not_ne_iff.mp h1, Bool.not_eq_false _ ▸ h2,
            Bool.not_eq_true _ ▸ h3, hcust, h.symm⟩

/-- A well-formed challenge stays well formed in a later state whose
allocation counter has not shrunk and whose accumulator at its id is
unchanged. -/
theorem ChallengeOk.mono {st st' : GState} {id : Nat} {c : Challenge}
    (h : ChallengeOk st id c) (hn : st.next_id ≤ st'.next_id)
    (hb : st'.escrow.balances id = st.escrow.balances id) :
    ChallengeOk st' id c :=
  ⟨Nat.lt_of_lt_of_le h.lt hn, h.nodup, h.fee_pos, h.pool_eq,
    fun ha hd => hb.trans (h.bal_act ha hd),
    fun ha hd => hb.trans (h.bal_cancel ha hd),
    h.votes_eq, h.dist_inactive⟩

/-- An active challenge in a well-formed state is undistributed. -/
theorem ChallengeOk.undist {st : GState} {id : Nat} {c : Challenge}
    (h : ChallengeOk st id c) (ha : c.is_active = true) :
    c.rewards_distributed = false := by
  cases hrd : c.rewards_distributed with
  | false => rfl
  | true => rw [h.dist_inactive hrd] at ha; exact absurd ha (by decide)

/-- The initial deployment satisfies the state invariant. -/
theorem init_inv (admin : Addr) (accounts0 : Addr → Nat) :
    StateInv (init_state admin accounts0) := by
  refine ⟨?_, ?_, ?_, ?_⟩
  · intro id c hc
    exact absurd hc (by simp [init_state])
  · intro id _
    rfl
  · intro id _
    rfl
  · simp [sumBal, init_state]

/-- create_challenge preserves the state invariant. -/
theorem inv_create {creator : Addr} {name description : List Nat}
    {entry_fee duration_days now : Nat} {st st' : GState}
    (hI : StateInv st)
    (h : create_challenge creator name description entry_fee duration_days
      now st = .ok st') : StateInv st' := by
  have he := create_challenge_ok h
  subst he
  refine ⟨?_, ?_, ?_, ?_⟩
  · intro id c2 hc2
    dsimp only at hc2 ⊢
    by_cases hid : id = st.next_id
    · subst hid
      rw [fupdate_self] at hc2
      cases hc2
      refine ⟨Nat.lt_succ_self _, List.nodup_nil, ?_, ?_, ?_, ?_, ?_, ?_⟩
      · intro habs; exact absurd rfl habs
      · intro _; rfl
      · intro _ _
        dsimp only
        rw [if_pos rfl]
        exact hI.fresh_bal _ (Nat.le_refl _)
      · intro habs; exact Bool.noConfusion habs
      · intro p s hs; exact Option.noConfusion hs
      · intro habs; exact Bool.noConfusion habs
    · rw [fupdate_ne _ _ _ _ hid] at hc2
      exact (hI.chal_ok id c2 hc2).mono (Nat.le_succ _) rfl
  · intro id hle
    dsimp only at hle ⊢
    rw [fupdate_ne _ _ _ _ (by omega)]
    exact hI.fresh_chal id (by omega)
  · intro id hle
    dsimp only at hle ⊢
    exact hI.fresh_bal id (by omega)
  · show (∑ i ∈ Finset.range (st.next_id + 1),
        (st.escrow.balances i).getD 0) + st.escrow.platform_fees ≤ st.custody
    rw [Finset.sum_range_succ, hI.fresh_bal st.next_id (Nat.le_refl _)]
    simpa [sumBal] using hI.custody_ge

/-- Effect of rewriting one accumulator on the escrowed total. -/
theorem sumBal_eq_of_update {st : GState} (cid : Nat) (v : Option Nat)
    (hlt : cid < st.next_id) :
    (∑ i ∈ Finset.range st.next_id,
        ((fupdate cid v st.escrow.balances) i).getD 0) +
      (st.escrow.balances cid).getD 0 = sumBal st + v.getD 0 := by
  have := sum_swap_at st.next_id cid
    (fun i => ((fupdate cid v st.escrow.balances) i).getD 0)
    (fun i => (st.escrow.balances i).getD 0)
    (fun i hi => by simp [fupdate, hi]) hlt
  simpa [sumBal, fupdate_self] using this

/-- join_challenge preserves the state invariant. -/
theorem inv_join {p : Addr} {cid now : Nat} {st st' : GState}
    (hI : StateInv st) (h : join_challenge p cid now st = .ok st') :
    StateInv st' := by
  cases hc : st.challenges cid with
  | none => unfold join_challenge at h; rw [hc] at h; simp at h
  | some c =>
    obtain ⟨hact, hnow, hnm, hfee, hfund, he⟩ := join_challenge_ok hc h
    subst he
    have hok := hI.chal_ok cid c hc
    have hdist : c.rewards_distributed = false := hok.undist hact
    have hlt := hok.lt
    refine ⟨?_, ?_, ?_, ?_⟩
    · intro id c2 hc2
      dsimp only at hc2
      by_cases hid : id = cid
      · rw [hid] at hc2 ⊢
        rw [fupdate_self] at hc2
        cases hc2
        refine ⟨hlt, ?_, ?_, ?_, ?_, ?_, ?_, ?_⟩
        · rw [List.nodup_append]
          exact ⟨hok.nodup, List.nodup_singleton _,
            fun a ha hpa => hnm (List.mem_singleton.mp hpa ▸ ha)⟩
        · intro _; exact hfee
        · intro _
          dsimp only
          rw [hok.pool_eq hdist, List.length_append, List.length_singleton]
          ring
        · intro _ _
          dsimp only
          rw [fupdate_self]
          have hgd : (st.escrow.balances cid).getD 0 = c.total_pool := by
            rw [hok.bal_act hact hdist]
            by_cases h0 : c.total_pool = 0
            · rw [if_pos h0, h0]; rfl
            · rw [if_neg h0]; rfl
          rw [hgd, if_neg (by omega)]
        · intro habs _
          rw [hact] at habs
          exact Bool.noConfusion habs
        · exact hok.votes_eq
        · intro hrd; exact hok.dist_inactive hrd
      · rw [fupdate_ne _ _ _ _ hid] at hc2
        exact (hI.chal_ok id c2 hc2).mono (Nat.le_refl _)
          (fupdate_ne _ _ _ _ hid)
    · intro id hle
      dsimp only at hle ⊢
      rw [fupdate_ne _ _ _ _ (by omega)]
      exact hI.fresh_chal id hle
    · intro id hle
      dsimp only at hle ⊢
      rw [fupdate_ne _ _ _ _ (by omega)]
      exact hI.fresh_bal id hle
    · show (∑ i ∈ Finset.range st.next_id,
          ((fupdate cid
            (some ((st.escrow.balances cid).getD 0 + c.entry_fee))
            st.escrow.balances) i).getD 0) +
          st.escrow.platform_fees ≤ st.custody + c.entry_fee
      have hs := sumBal_eq_of_update cid
        (some ((st.escrow.balances cid).getD 0 + c.entry_fee)) hlt
      simp only [Option.getD_some] at hs
      have hg := hI.custody_ge
      omega

/-- submit_proof preserves the state invariant. -/
theorem inv_submit {p : Addr} {cid : Nat} {uri : List Nat} {now : Nat}
    {st st' : GState} (hI : StateInv st)
    (h : submit_proof p cid uri now st = .ok st') : StateInv st' := by
  cases hc : st.challenges cid with
  | none => unfold submit_proof at h; rw [hc] at h; simp at h
  | some c =>
    obtain ⟨hmem, hnone, he⟩ := submit_proof_ok hc h
    subst he
    have hok := hI.chal_ok cid c hc
    refine ⟨?_, ?_, ?_, ?_⟩
    · intro id c2 hc2
      dsimp only at hc2
      by_cases hid : id = cid
      · rw [hid] at hc2 ⊢
        rw [fupdate_self] at hc2
        cases hc2
        refine ⟨hok.lt, hok.nodup, hok.fee_pos, hok.pool_eq, hok.bal_act,
          hok.bal_cancel, ?_, hok.dist_inactive⟩
        intro q s hs
        dsimp only at hs
        by_cases hq : q = p
        · rw [hq, fupdate_self] at hs
          cases hs
          rfl
        · rw [fupdate_ne _ _ _ _ hq] at hs
          exact hok.votes_eq q s hs
      · rw [fupdate_ne _ _ _ _ hid] at hc2
        exact (hI.chal_ok id c2 hc2).mono (Nat.le_refl _) rfl
    · intro id hle
      dsimp only at hle ⊢
      rw [fupdate_ne _ _ _ _ (by have := hok.lt; omega)]
      exact hI.fresh_chal id hle
    · intro id hle
      exact hI.fresh_bal id hle
    · exact hI.custody_ge

/-- vote preserves the state invariant. -/
theorem inv_vote {voter : Addr} {cid : Nat} {p : Addr} {approve : Bool}
    {st st' : GState} (hI : StateInv st)
    (h : vote voter cid p approve st = .ok st') : StateInv st' := by
  cases hc : st.challenges cid with
  | none => unfold vote at h; rw [hc] at h; simp at h
  | some c =>
    obtain ⟨sub, sub1, hs, ha, he⟩ := vote_ok hc h
    subst he
    have hok := hI.chal_ok cid c hc
    obtain ⟨-, hvoters, -, -, htrue, hfalse, -⟩ := apply_vote_ok ha
    refine ⟨?_, ?_, ?_, ?_⟩
    · intro id c2 hc2
      dsimp only at hc2
      by_cases hid : id = cid
      · rw [hid] at hc2 ⊢
        rw [fupdate_self] at hc2
        cases hc2
        refine ⟨hok.lt, hok.nodup, hok.fee_pos, hok.pool_eq, hok.bal_act,
          hok.bal_cancel, ?_, hok.dist_inactive⟩
        intro q s hsq
        dsimp only at hsq
        by_cases hq : q = p
        · rw [hq, fupdate_self] at hsq
          cases hsq
          have hlen := hok.votes_eq p sub hs
          rw [hvoters, List.length_append, List.length_singleton]
          cases approve with
          | true =>
            obtain ⟨hf, hg⟩ := htrue rfl
            omega
          | false =>
            obtain ⟨hf, hg⟩ := hfalse rfl
            omega
        · rw [fupdate_ne _ _ _ _ hq] at hsq
          exact hok.votes_eq q s hsq
      · rw [fupdate_ne _ _ _ _ hid] at hc2
        exact (hI.chal_ok id c2 hc2).mono (Nat.le_refl _) rfl
    · intro id hle
      dsimp only at hle ⊢
      rw [fupdate_ne _ _ _ _ (by have := hok.lt; omega)]
      exact hI.fresh_chal id hle
    · intro id hle
      exact hI.fresh_bal id hle
    · exact hI.custody_ge

/-- The 5 percent fee never exceeds the pool it is taken from. -/
theorem fee_le_pool (total : Nat) : total * 5 / 100 ≤ total := by
  have h1 := Nat.div_mul_le_self (total * 5) 100
  have h2 : total * 5 ≤ total * 100 := Nat.mul_le_mul_left total (by norm_num)
  omega

/-- distribute_rewards preserves the state invariant. -/
theorem inv_distribute {cid now : Nat} {st st' : GState} (hI : StateInv st)
    (h : distribute_rewards cid now st = .ok st') : StateInv st' := by
  cases hc : st.challenges cid with
  | none => unfold distribute_rewards at h; rw [hc] at h; simp at h
  | some c =>
    obtain ⟨hend, hdist, st1, hd, he⟩ := distribute_rewards_ok hc h
    obtain ⟨escrowed, hbal, hple, hzero, hpos⟩ := escrow_distribute_ok hd
    subst he
    have hok := hI.chal_ok cid c hc
    have hlt := hok.lt
    by_cases hn : (verified_winners c).length = 0
    · have h1eq := hzero hn
      subst h1eq
      refine ⟨?_, ?_, ?_, ?_⟩
      · intro id c2 hc2
        dsimp only at hc2
        by_cases hid : id = cid
        · rw [hid] at hc2 ⊢
          rw [fupdate_self] at hc2
          cases hc2
          refine ⟨hlt, hok.nodup, hok.fee_pos, ?_, ?_, ?_, hok.votes_eq,
            ?_⟩
          · intro habs; exact Bool.noConfusion habs
          · intro habs _; exact Bool.noConfusion habs
          · intro _ habs; exact Bool.noConfusion habs
          · intro _; rfl
        · rw [fupdate_ne _ _ _ _ hid] at hc2
          exact (hI.chal_ok id c2 hc2).mono (Nat.le_refl _)
            (fupdate_ne _ _ _ _ hid)
      · intro id hle
        dsimp only at hle ⊢
        rw [fupdate_ne _ _ _ _ (by omega)]
        exact hI.fresh_chal id hle
      · intro id hle
        dsimp only at hle ⊢
        rw [fupdate_ne _ _ _ _ (by omega)]
        exact hI.fresh_bal id hle
      · show (∑ i ∈ Finset.range st.next_id,
            ((fupdate cid (some 0) st.escrow.balances) i).getD 0) +
            (st.escrow.platform_fees + c.total_pool * 5 / 100) ≤ st.custody
        have hs := sumBal_eq_of_update cid (some 0) hlt
        rw [hbal] at hs
        simp only [Option.getD_some] at hs
        have hg := hI.custody_ge
        have hf := fee_le_pool c.total_pool
        omega
    · obtain ⟨hcust, h1eq⟩ := hpos hn
      subst h1eq
      refine ⟨?_, ?_, ?_, ?_⟩
      · intro id c2 hc2
        dsimp only at hc2
        by_cases hid : id = cid
        · rw [hid] at hc2 ⊢
          rw [fupdate_self] at hc2
          cases hc2
          refine ⟨hlt, hok.nodup, hok.fee_pos, ?_, ?_, ?_, hok.votes_eq,
            ?_⟩
          · intro habs; exact Bool.noConfusion habs
          · intro habs _; exact Bool.noConfusion habs
          · intro _ habs; exact Bool.noConfusion habs
          · intro _; rfl
        · rw [fupdate_ne _ _ _ _ hid] at hc2
          exact (hI.chal_ok id c2 hc2).mono (Nat.le_refl _)
            (fupdate_ne _ _ _ _ hid)
      · intro id hle
        dsimp only at hle ⊢
        rw [fupdate_ne _ _ _ _ (by omega)]
        exact hI.fresh_chal id hle
      · intro id hle
        dsimp only at hle ⊢
        rw [fupdate_ne _ _ _ _ (by omega)]
        exact hI.fresh_bal id hle
      · show (∑ i ∈ Finset.range st.next_id,
            ((fupdate cid (some 0) st.escrow.balances) i).getD 0) +
            (st.escrow.platform_fees + c.total_pool * 5 / 100) ≤
            st.custody - (verified_winners c).length *
              ((c.total_pool - c.total_pool * 5 / 100) /
                (verified_winners c).length)
        have hs := sumBal_eq_of_update cid (some 0) hlt
        rw [hbal] at hs
        simp only [Option.getD_some] at hs
        have hg := hI.custody_ge
        have hf := fee_le_pool c.total_pool
        have h3 := Nat.div_mul_le_self
          (c.total_pool - c.total_pool * 5 / 100) (verified_winners c).length
        have h4 : (verified_winners c).length *
            ((c.total_pool - c.total_pool * 5 / 100) /
              (verified_winners c).length) =
            ((c.total_pool - c.total_pool * 5 / 100) /
              (verified_winners c).length) * (verified_winners c).length :=
          Nat.mul_comm _ _
        omega

/-- cancel_challenge preserves the state invariant. -/
theorem inv_cancel {caller : Addr} {cid : Nat} {st st' : GState}
    (hI : StateInv st) (h : cancel_challenge caller cid st = .ok st') :
    StateInv st' := by
  cases hc : st.challenges cid with
  | none => unfold cancel_challenge at h; rw [hc] at h; simp at h
  | some c =>
    obtain ⟨hcr, hact, hdist, hcust, he⟩ := cancel_challenge_ok hc h
    subst he
    have hok := hI.chal_ok cid c hc
    have hlt := hok.lt
    have hb := hok.bal_act hact hdist
    refine ⟨?_, ?_, ?_, ?_⟩
    · intro id c2 hc2
      dsimp only at hc2
      by_cases hid : id = cid
      · rw [hid] at hc2 ⊢
        rw [fupdate_self] at hc2
        cases hc2
        refine ⟨hlt, hok.nodup, hok.fee_pos, hok.pool_eq, ?_, ?_,
          hok.votes_eq, ?_⟩
        · intro habs _; exact Bool.noConfusion habs
        · intro _ _
          dsimp only
          rw [fupdate_self, hb]
          by_cases h0 : c.total_pool = 0
          · simp [h0]
          · simp [h0]
        · intro habs; rw [hdist] at habs
      · rw [fupdate_ne _ _ _ _ hid] at hc2
        exact (hI.chal_ok id c2 hc2).mono (Nat.le_refl _)
          (fupdate_ne _ _ _ _ hid)
    · intro id hle
      dsimp only at hle ⊢
      rw [fupdate_ne _ _ _ _ (by omega)]
      exact hI.fresh_chal id hle
    · intro id hle
      dsimp only at hle ⊢
      rw [fupdate_ne _ _ _ _ (by omega)]
      exact hI.fresh_bal id hle
    · show (∑ i ∈ Finset.range st.next_id,
          ((fupdate cid ((st.escrow.balances cid).map (fun _ => 0))
            st.escrow.balances) i).getD 0) +
          st.escrow.platform_fees ≤
          st.custody - c.participants.length * c.entry_fee
      have hs := sumBal_eq_of_update cid
        ((st.escrow.balances cid).map (fun _ => 0)) hlt
      have hpool := hok.pool_eq hdist
      have hg := hI.custody_ge
      have hlenfee : c.participants.length * c.entry_fee = c.total_pool := by
        rw [hpool]; exact Nat.mul_comm _ _
      have hmap : ((st.escrow.balances cid).map (fun _ => 0)).getD 0 = 0 := by
        cases st.escrow.balances cid <;> rfl
      have hbd : (st.escrow.balances cid).getD 0 = c.total_pool := by
        rw [hb]
        by_cases h0 : c.total_pool = 0
        · rw [if_pos h0, h0]; rfl
        · rw [if_neg h0]; rfl
      rw [hbd, hmap] at hs
      rw [hlenfee]
      omega

/-- withdraw_platform_fees preserves the state invariant. -/
theorem inv_withdraw {admin amount : Nat} {st st' : GState}
    (hI : StateInv st) (h : withdraw_platform_fees admin amount st = .ok st') :
    StateInv st' := by
  obtain ⟨-, hfees, hcust, he⟩ := withdraw_platform_fees_ok h
  subst he
  refine ⟨?_, ?_, ?_, ?_⟩
  · intro id c2 hc2
    exact (hI.chal_ok id c2 hc2).mono (Nat.le_refl _) rfl
  · intro id hle
    exact hI.fresh_chal id hle
  · intro id hle
    exact hI.fresh_bal id hle
  · show sumBal st + (st.escrow.platform_fees - amount) ≤
      st.custody - amount
    have hg := hI.custody_ge
    omega

/-- Every state reachable by the public operations satisfies the global
invariant. -/
theorem reachable_inv {st : GState} (h : Reachable st) : StateInv st := by
  induction h with
  | init admin accounts0 => exact init_inv admin accounts0
  | create _ _ _ _ _ _ _ h2 ih => exact inv_create ih h2
  | join _ _ _ _ h2 ih => exact inv_join ih h2
  | submit _ _ _ _ _ h2 ih => exact inv_submit ih h2
  | vote_step _ _ _ _ _ h2 ih => exact inv_vote ih h2
  | distribute _ _ _ h2 ih => exact inv_distribute ih h2
  | cancel _ _ _ h2 ih => exact inv_cancel ih h2
  | withdraw _ _ _ h2 ih => exact inv_withdraw ih h2

/-- Fresh deployment with admin 0 where every user holds 1,000,000 units. -/
def st0 : GState := init_state 0 (fun _ => 1000000)

/-- Scenario A step 1: user 3 creates challenge 0 with entry_fee 1,000,000
and duration 30 days at time 0 (end_time 2,592,000). -/
def stA1 : GState := (create_challenge 3 [] [] 1000000 30 0 st0).toOption.getD st0

/-- Scenario A step 2: user 7 joins challenge 0 at time 1. -/
def stA2 : GState := (join_challenge 7 0 1 stA1).toOption.getD stA1

/-- Scenario A step 3: user 8 joins challenge 0 at time 2; the pool is now
2,000,000. -/
def stA3 : GState := (join_challenge 8 0 2 stA2).toOption.getD stA2

/-- Scenario B step 1: participant 7 submits a proof at time 3. -/
def stB1 : GState := (submit_proof 7 0 [42] 3 stA3).toOption.getD stA3

/-- Scenario B: voter 11 approves. -/
def stB2 : GState := (vote 11 0 7 true stB1).toOption.getD stB1

/-- Scenario B: voter 12 approves. -/
def stB3 : GState := (vote 12 0 7 true stB2).toOption.getD stB2

/-- Scenario B: voter 13 approves (3 approvals, not yet verified). -/
def stB4 : GState := (vote 13 0 7 true stB3).toOption.getD stB3

/-- Scenario B: voter 14 approves (4 approvals, verified). -/
def stB5 : GState := (vote 14 0 7 true stB4).toOption.getD stB4

/-- Rewards distributed on stA3 after the end (no submissions, zero
winners). -/
def stD : GState := (distribute_rewards 0 2592001 stA3).toOption.getD stA3

/-- Rewards distributed on stB5 after the end (7 is the sole verified
winner). -/
def stE : GState := (distribute_rewards 0 2592001 stB5).toOption.getD stB5

/-- Second trace: user 3 creates challenge 0 with entry_fee 5 and duration
1 day at time 0 (end_time 86,400), nobody joins. -/
def stK1 : GState := (create_challenge 3 [] [] 5 1 0 st0).toOption.getD st0

/-- Second trace: the creator cancels the empty challenge. -/
def stK2 : GState := (cancel_challenge 3 0 stK1).toOption.getD stK1

/-- Placeholder used only to project challenges out of Option. -/
def dummyChallenge : Challenge :=
  { id := 0, creator := 0, name := [], description := [], entry_fee := 0,
    start_time := 0, end_time := 0, participants := [],
    submissions := fun _ => none, total_pool := 0, is_active := true,
    rewards_distributed := false }

/-- Challenge 0 as stored in stA2. -/
def cA2 : Challenge := (stA2.challenges 0).getD dummyChallenge

/-- Challenge 0 as stored in stA3. -/
def cA3 : Challenge := (stA3.challenges 0).getD dummyChallenge

/-- Challenge 0 as stored in stB5. -/
def cB5 : Challenge := (stB5.challenges 0).getD dummyChallenge

/-- Challenge 0 as stored in stK2. -/
def cK2 : Challenge := (stK2.challenges 0).getD dummyChallenge

/-- The fresh deployment is reachable. -/
theorem reach_st0 : Reachable st0 := Reachable.init 0 (fun _ => 1000000)

/-- stA1 is reachable. -/
theorem reach_stA1 : Reachable stA1 :=
  Reachable.create 3 [] [] 1000000 30 0 reach_st0 rfl

/-- stA2 is reachable. -/
theorem reach_stA2 : Reachable stA2 := Reachable.join 7 0 1 reach_stA1 rfl

/-- stA3 is reachable. -/
theorem reach_stA3 : Reachable stA3 := Reachable.join 8 0 2 reach_stA2 rfl

/-- stB1 is reachable. -/
theorem reach_stB1 : Reachable stB1 :=
  Reachable.submit 7 0 [42] 3 reach_stA3 rfl

/-- stB2 is reachable. -/
theorem reach_stB2 : Reachable stB2 :=
  Reachable.vote_step 11 0 7 true reach_stB1 rfl

/-- stB3 is reachable. -/
theorem reach_stB3 : Reachable stB3 :=
  Reachable.vote_step 12 0 7 true reach_stB2 rfl

/-- stB4 is reachable. -/
theorem reach_stB4 : Reachable stB4 :=
  Reachable.vote_step 13 0 7 true reach_stB3 rfl

/-- stB5 is reachable. -/
theorem reach_stB5 : Reachable stB5 :=
  Reachable.vote_step 14 0 7 true reach_stB4 rfl

/-- stK1 is reachable. -/
theorem reach_stK1 : Reachable stK1 :=
  Reachable.create 3 [] [] 5 1 0 reach_st0 rfl

/-- stK2 is reachable. -/
theorem reach_stK2 : Reachable stK2 := Reachable.cancel 3 0 reach_stK1 rfl

/-- C1: in every committed state reachable by the public operations, a
challenge that is active with rewards undistributed has
total_pool = entry_fee * number of roster members, and the per-challenge
escrow accumulator equals total_pool (the accumulator is created at the
first deposit and zeroed only by a distribute or refund, after which the
challenge is no longer active-and-undistributed). -/
theorem c1_pool_matches_roster_and_escrow {st : GState} {cid : Nat}
    {c : Challenge} (hr : Reachable st) (hc : st.challenges cid = some c)
    (hact : c.is_active = true) (hdist : c.rewards_distributed = false) :
    c.total_pool = c.entry_fee * c.participants.length ∧
    (st.escrow.balances cid).getD 0 = c.total_pool := by
  have hok := (reachable_inv hr).chal_ok cid c hc
  refine ⟨hok.pool_eq hdist, ?_⟩
  rw [hok.bal_act hact hdist]
  by_cases h0 : c.total_pool = 0
  · rw [if_pos h0, h0]; rfl
  · rw [if_neg h0]; rfl

/-- Witness for C1 on the concrete two-participant state stA3. -/
theorem c1_witness :
    cA3.total_pool = cA3.entry_fee * cA3.participants.length ∧
    (stA3.escrow.balances 0).getD 0 = cA3.total_pool :=
  c1_pool_matches_roster_and_escrow reach_stA3 rfl rfl rfl

/-- C2: distribute_rewards fails with NotEnded while now ≤ end_time, fails
with AlreadyDistributed once rewards_distributed holds, and on success
(even with an empty winner set) it sets rewards_distributed and clears
is_active and the accumulator, after which every further call fails
(AlreadyDistributed whenever the clock is past end_time), so it succeeds
at most once per challenge. -/
theorem c2_distribute_guards_and_at_most_once {st : GState} {cid now : Nat}
    {c : Challenge} (hc : st.challenges cid = some c) :
    (now ≤ c.end_time → distribute_rewards cid now st = .error .NotEnded) ∧
    (c.end_time < now → c.rewards_distributed = true →
      distribute_rewards cid now st = .error .AlreadyDistributed) ∧
    (∀ st', distribute_rewards cid now st = .ok st' →
      ∃ c', st'.challenges cid = some c' ∧
        c'.rewards_distributed = true ∧ c'.is_active = false ∧
        st'.escrow.balances cid = some 0 ∧
        (∀ now2, c.end_time < now2 →
          distribute_rewards cid now2 st' = .error .AlreadyDistributed) ∧
        (∀ now2 st2, distribute_rewards cid now2 st' ≠ .ok st2)) := by
  refine ⟨?_, ?_, ?_⟩
  · intro hle
    unfold distribute_rewards
    rw [hc]
    simp only
    rw [if_pos hle]
  · intro hlt hrd
    unfold distribute_rewards
    rw [hc]
    simp only
    rw [if_neg (Nat.not_le_of_lt hlt), if_pos hrd]
  · intro st' h
    obtain ⟨hend, hdist, st1, hd, he⟩ := distribute_rewards_ok hc h
    obtain ⟨escrowed, hbal, hple, hzero, hpos⟩ := escrow_distribute_ok hd
    subst he
    have hch : ({ st1 with
        challenges := fupdate cid (some { c with
          rewards_distributed := true,
          is_active := false }) st1.challenges } : GState).challenges cid =
        some { c with rewards_distributed := true, is_active := false } := by
      dsimp only
      rw [fupdate_self]
    refine ⟨_, hch, rfl, rfl, ?_, ?_, ?_⟩
    · by_cases hn : (verified_winners c).length = 0
      · have h1 := hzero hn
        subst h1
        dsimp only
        rw [fupdate_self]
      · obtain ⟨-, h1⟩ := hpos hn
        subst h1
        dsimp only
        rw [fupdate_self]
    · intro now2 hlt
      unfold distribute_rewards
      rw [hch]
      simp [Nat.not_le_of_lt hlt]
    · intro now2 st2
      unfold distribute_rewards
      rw [hch]
      by_cases hle : now2 ≤ c.end_time
      · simp [hle]
      · simp [hle]

/-- Witness for C2: distributing challenge 0 of stA3 at time 2,592,001
zeroes the accumulator, and a repeat call at 2,592,002 fails with
AlreadyDistributed. -/
theorem c2_witness :
    stD.escrow.balances 0 = some 0 ∧
    distribute_rewards 0 2592002 stD = .error .AlreadyDistributed := by
  obtain ⟨-, -, h3⟩ :=
    @c2_distribute_guards_and_at_most_once stA3 0 2592001 cA3 rfl
  obtain ⟨c', -, -, -, hbal, hsecond, -⟩ := h3 stD rfl
  exact ⟨hbal, hsecond 2592002 (by decide)⟩

/-- Creator 3 cancels challenge 0 of stA3 (refunding both participants). -/
def stC : GState := (cancel_challenge 3 0 stA3).toOption.getD stA3

/-- Challenge 0 as stored in stC. -/
def cC : Challenge := (stC.challenges 0).getD dummyChallenge

/-- stC is reachable. -/
theorem reach_stC : Reachable stC := Reachable.cancel 3 0 reach_stA3 rfl

/-- Zero-fee trace: user 4 creates challenge 0 with entry_fee 0 and
duration 1 day at time 0. -/
def stZ1 : GState := (create_challenge 4 [] [] 0 1 0 st0).toOption.getD st0

/-- Challenge 0 as stored in stZ1. -/
def cZ1 : Challenge := (stZ1.challenges 0).getD dummyChallenge

/-- Placeholder used only to project submissions out of Option. -/
def dummySubmission : Submission :=
  { proof_uri := [], timestamp := 0, votes_for := 0, votes_against := 0,
    voters := [], is_verified := false }

/-- Challenge 0 as stored in stB1 and stB2. -/
def cB1 : Challenge := (stB1.challenges 0).getD dummyChallenge

/-- Challenge 0 as stored in stB2. -/
def cB2 : Challenge := (stB2.challenges 0).getD dummyChallenge

/-- The submission of participant 7 in stB1. -/
def sB1 : Submission := (cB1.submissions 7).getD dummySubmission

/-- The submission of participant 7 in stB2. -/
def sB2 : Submission := (cB2.submissions 7).getD dummySubmission

/-- The submission of participant 7 in stB5. -/
def sB5 : Submission := (cB5.submissions 7).getD dummySubmission

/-- C3: a successful distribution credits exactly
floor(total_pool * 5 / 100) to the platform fee pool and pays each of the
n > 0 verified winners exactly floor((total_pool - fee) / n); with a
2,000,000 pool the fee is exactly 100,000, and with zero winners no
account balance changes. -/
theorem c3_fee_and_payout_arithmetic {st st' : GState} {cid now : Nat}
    {c : Challenge} (hr : Reachable st) (hc : st.challenges cid = some c)
    (h : distribute_rewards cid now st = .ok st') :
    st'.escrow.platform_fees =
      st.escrow.platform_fees + c.total_pool * 5 / 100 ∧
    (∀ w ∈ verified_winners c, st'.accounts w = st.accounts w +
      (c.total_pool - c.total_pool * 5 / 100) /
        (verified_winners c).length) ∧
    (c.total_pool = 2000000 → st'.escrow.platform_fees =
      st.escrow.platform_fees + 100000) ∧
    (verified_winners c = [] → ∀ a, st'.accounts a = st.accounts a) := by
  have hnd : (verified_winners c).Nodup :=
    ((reachable_inv hr).chal_ok cid c hc).nodup.filter _
  obtain ⟨hend, hdist, st1, hd, he⟩ := distribute_rewards_ok hc h
  obtain ⟨escrowed, hbal, hple, hzero, hpos⟩ := escrow_distribute_ok hd
  subst he
  by_cases hn : (verified_winners c).length = 0
  · have h1 := hzero hn
    subst h1
    refine ⟨rfl, ?_, ?_, ?_⟩
    · intro w hw
      rw [List.length_eq_zero.mp hn] at hw
      exact absurd hw (List.not_mem_nil w)
    · intro h2m
      simp only [h2m]
    · intro _ a
      rfl
  · obtain ⟨hcust, h1⟩ := hpos hn
    subst h1
    refine ⟨rfl, ?_, ?_, ?_⟩
    · intro w hw
      exact credit_all_mem _ _ w st.accounts hnd hw
    · intro h2m
      simp only [h2m]
    · intro hempty
      rw [hempty] at hn
      exact absurd rfl hn

/-- Witness for C3: distributing challenge 0 of stB5 (pool 2,000,000, one
verified winner) credits 100,000 in fees and pays winner 7 exactly
1,900,000. -/
theorem c3_witness :
    stE.escrow.platform_fees = stB5.escrow.platform_fees + 100000 ∧
    stE.accounts 7 = stB5.accounts 7 + 1900000 := by
  obtain ⟨-, hpay, h2m, -⟩ :=
    @c3_fee_and_payout_arithmetic stB5 stE 0 2592001 cB5 reach_stB5 rfl rfl
  exact ⟨h2m rfl, hpay 7 (by decide)⟩

/-- C4: after a successful vote the submission is verified exactly when it
was already verified or the updated tallies satisfy
votes_for > votes_against + 3 (so the latch fires exactly at the first
crossing and never resets); concretely, with 4 distinct approvals the
latch is off after the 3rd vote (3 > 0 + 3 fails) and on after the 4th
(4 > 0 + 3). -/
theorem c4_verification_latch {st st' : GState} {cid : Nat}
    {voter p : Addr} {approve : Bool} {c c' : Challenge}
    {sub sub' : Submission}
    (hc : st.challenges cid = some c) (hs : c.submissions p = some sub)
    (h : vote voter cid p approve st = .ok st')
    (hc' : st'.challenges cid = some c')
    (hs' : c'.submissions p = some sub') :
    ((sub'.is_verified = true ↔
      (sub.is_verified = true ∨ sub'.votes_against + 3 < sub'.votes_for)) ∧
      (sub.is_verified = true → sub'.is_verified = true)) ∧
    (get_submission_votes 0 7 stB4 = .ok (3, 0, false) ∧
      get_submission_votes 0 7 stB5 = .ok (4, 0, true)) := by
  obtain ⟨sub0, sub1, hs0, ha, he⟩ := vote_ok hc h
  rw [hs] at hs0
  cases hs0
  subst he
  dsimp only at hc'
  rw [fupdate_self] at hc'
  cases hc'
  dsimp only at hs'
  rw [fupdate_self] at hs'
  cases hs'
  obtain ⟨-, -, -, -, -, -, hver⟩ := apply_vote_ok ha
  refine ⟨⟨?_, ?_⟩, rfl, rfl⟩
  · by_cases hlt : sub'.votes_against + 3 < sub'.votes_for
    · rw [hver, if_pos hlt]
      exact ⟨fun _ => Or.inr hlt, fun _ => rfl⟩
    · rw [hver, if_neg hlt]
      exact ⟨fun hv => Or.inl hv, fun hv => hv.resolve_right hlt⟩
  · intro hv
    rw [hver]
    split
    · rfl
    · exact hv

/-- Challenge 0 as stored in stB4. -/
def cB4 : Challenge := (stB4.challenges 0).getD dummyChallenge

/-- The submission of participant 7 in stB4. -/
def sB4 : Submission := (cB4.submissions 7).getD dummySubmission

/-- Witness for C4 on the concrete vote from stB4 to stB5. -/
theorem c4_witness :
    (sB5.is_verified = true ↔
      (sB4.is_verified = true ∨ sB5.votes_against + 3 < sB5.votes_for)) ∧
    sB5.is_verified = true := by
  obtain ⟨⟨hiff, -⟩, -⟩ :=
    @c4_verification_latch stB4 stB5 0 14 7 true cB4 cB5 sB4 sB5
      rfl rfl rfl rfl rfl
  exact ⟨hiff, hiff.mpr (Or.inr (by decide))⟩

/-- C5: join_challenge checks NotActive, then Expired (so an expired but
still-active challenge reports Expired), then AlreadyJoined; a success
appends the participant to the roster and adds entry_fee to the pool, and
when the escrow deposit fails the whole transaction aborts with the
deposit's error, leaving the roster (and all other state) unchanged since
an aborted transaction commits nothing. -/
theorem c5_join_guards_and_effects {st : GState} {p : Addr} {cid now : Nat}
    {c : Challenge} (hc : st.challenges cid = some c) :
    (c.is_active = false → join_challenge p cid now st = .error .NotActive) ∧
    (c.is_active = true → c.end_time ≤ now →
      join_challenge p cid now st = .error .Expired) ∧
    (c.is_active = true → now < c.end_time → p ∈ c.participants →
      join_challenge p cid now st = .error .AlreadyJoined) ∧
    (∀ st', join_challenge p cid now st = .ok st' →
      ∃ c', st'.challenges cid = some c' ∧
        c'.participants = c.participants ++ [p] ∧
        c'.total_pool = c.total_pool + c.entry_fee) ∧
    (∀ e, escrow_deposit p cid c.entry_fee st = .error e →
      c.is_active = true → now < c.end_time → p ∉ c.participants →
      join_challenge p cid now st = .error e) := by
  refine ⟨?_, ?_, ?_, ?_, ?_⟩
  · intro hina
    unfold join_challenge
    rw [hc]
    simp only
    rw [if_pos hina]
  · intro hact hle
    unfold join_challenge
    rw [hc]
    simp only
    rw [if_neg (by simp [hact]), if_pos hle]
  · intro hact hlt hmem
    unfold join_challenge
    rw [hc]
    simp only
    rw [if_neg (by simp [hact]), if_neg (Nat.not_le_of_lt hlt),
      if_pos hmem]
  · intro st' h
    obtain ⟨hact, hlt, hnm, hfee, hfund, he⟩ := join_challenge_ok hc h
    subst he
    refine ⟨{ c with
                participants := c.participants ++ [p],
                total_pool := c.total_pool + c.entry_fee }, ?_, rfl, rfl⟩
    dsimp only
    rw [fupdate_self]
  · intro e hdep hact hlt hnm
    unfold join_challenge
    rw [hc]
    simp only
    rw [if_neg (by simp [hact]), if_neg (Nat.not_le_of_lt hlt),
      if_neg hnm, hdep]

/-- Witness for C5: joining expired-but-active challenge 0 of stA3 at time
2,600,000 fails with Expired, and the successful join of user 8 appended
exactly that user and added exactly the entry fee. -/
theorem c5_witness :
    join_challenge 9 0 2600000 stA3 = .error .Expired ∧
    cA3.participants = cA2.participants ++ [8] ∧
    cA3.total_pool = cA2.total_pool + cA2.entry_fee := by
  obtain ⟨-, hexp, -, -, -⟩ :=
    @c5_join_guards_and_effects stA3 9 0 2600000 cA3 rfl
  obtain ⟨-, -, -, h4, -⟩ := @c5_join_guards_and_effects stA2 8 0 2 cA2 rfl
  obtain ⟨c', hc', hp, hpool⟩ := h4 stA3 rfl
  have hcc : some c' = some cA3 :=
    hc'.symm.trans (rfl : stA3.challenges 0 = some cA3)
  cases hcc
  exact ⟨hexp rfl (by decide), hp, hpool⟩

/-- C6: vote checks NoSubmission then AlreadyVoted and nothing else, so
any voter identity not yet in the voter set (roster members or not, the
submitter included) can vote; success appends the voter and bumps exactly
one tally, and in every reachable state each submission satisfies
voters.length = votes_for + votes_against. -/
theorem c6_vote_guards_and_effects {st : GState} {cid : Nat}
    {voter p : Addr} {approve : Bool} {c : Challenge}
    (hc : st.challenges cid = some c) :
    (c.submissions p = none →
      vote voter cid p approve st = .error .NoSubmission) ∧
    (∀ sub, c.submissions p = some sub → voter ∈ sub.voters →
      vote voter cid p approve st = .error .AlreadyVoted) ∧
    (∀ sub, c.submissions p = some sub → voter ∉ sub.voters →
      ∃ st', vote voter cid p approve st = .ok st') ∧
    (∀ sub st' c' sub', c.submissions p = some sub →
      vote voter cid p approve st = .ok st' →
      st'.challenges cid = some c' → c'.submissions p = some sub' →
      sub'.voters = sub.voters ++ [voter] ∧
      sub'.voters.length = sub.voters.length + 1 ∧
      (approve = true → sub'.votes_for = sub.votes_for + 1 ∧
        sub'.votes_against = sub.votes_against) ∧
      (approve = false → sub'.votes_for = sub.votes_for ∧
        sub'.votes_against = sub.votes_against + 1)) ∧
    (Reachable st → ∀ q s, c.submissions q = some s →
      s.voters.length = s.votes_for + s.votes_against) := by
  refine ⟨?_, ?_, ?_, ?_, ?_⟩
  · intro h0
    unfold vote
    rw [hc]
    simp only
    rw [h0]
  · intro sub hsub hv
    have ha : apply_vote voter approve sub = .error .AlreadyVoted := by
      unfold apply_vote
      rw [if_pos hv]
    unfold vote
    rw [hc]
    simp only
    rw [hsub]
    simp only
    rw [ha]
  · intro sub hsub hv
    have ha : ∃ sub1, apply_vote voter approve sub = .ok sub1 := by
      unfold apply_vote
      rw [if_neg hv]
      exact ⟨_, rfl⟩
    obtain ⟨sub1, ha⟩ := ha
    refine ⟨({ st with
                 challenges := fupdate cid (some { c with
                   submissions := fupdate p (some sub1) c.submissions })
                   st.challenges } : GState), ?_⟩
    unfold vote
    rw [hc]
    simp only
    rw [hsub]
    simp only
    rw [ha]
  · intro sub st' c' sub' hsub h hc' hs'
    obtain ⟨sub0, sub1, hs0, ha, he⟩ := vote_ok hc h
    rw [hsub] at hs0
    cases hs0
    subst he
    dsimp only at hc'
    rw [fupdate_self] at hc'
    cases hc'
    dsimp only at hs'
    rw [fupdate_self] at hs'
    cases hs'
    obtain ⟨-, hvoters, -, -, htrue, hfalse, -⟩ := apply_vote_ok ha
    refine ⟨hvoters, ?_, htrue, hfalse⟩
    rw [hvoters, List.length_append, List.length_singleton]
  · intro hr q s hsq
    exact ((reachable_inv hr).chal_ok cid c hc).votes_eq q s hsq

/-- Witness for C6: the submitter can vote on their own submission in
stB1, voter 11 is rejected on a second ballot in stB2, and the tallies of
the submission in stB5 add up to its voter set size. -/
theorem c6_witness :
    (∃ st', vote 7 0 7 true stB1 = .ok st') ∧
    vote 11 0 7 true stB2 = .error .AlreadyVoted ∧
    sB5.voters.length = sB5.votes_for + sB5.votes_against := by
  obtain ⟨-, -, hself, -, -⟩ :=
    @c6_vote_guards_and_effects stB1 0 7 7 true cB1 rfl
  obtain ⟨-, hdup, -, -, -⟩ :=
    @c6_vote_guards_and_effects stB2 0 11 7 true cB2 rfl
  obtain ⟨-, -, -, -, hinv⟩ :=
    @c6_vote_guards_and_effects stB5 0 99 7 true cB5 rfl
  exact ⟨hself sB1 rfl (by decide), hdup sB2 rfl (by decide),
    hinv reach_stB5 7 sB5 rfl⟩

/-- C7: cancel_challenge by anyone but the creator aborts with
NotAuthorized, committing nothing (roster and pool unchanged); the creator
of an active, undistributed challenge always succeeds in a reachable
state, paying the fixed entry_fee to each roster member exactly once
(whatever their deposit history), zeroing the accumulator, and clearing
is_active. -/
theorem c7_cancel_authorization_and_refund {st : GState} {caller : Addr}
    {cid : Nat} {c : Challenge} (hr : Reachable st)
    (hc : st.challenges cid = some c) :
    (c.creator ≠ caller →
      cancel_challenge caller cid st = .error .NotAuthorized) ∧
    (c.creator = caller → c.is_active = true →
      c.rewards_distributed = false →
      ∃ st' c', cancel_challenge caller cid st = .ok st' ∧
        st'.challenges cid = some c' ∧ c'.is_active = false ∧
        (st'.escrow.balances cid).getD 0 = 0 ∧
        ∀ w ∈ c.participants,
          st'.accounts w = st.accounts w + c.entry_fee) := by
  have hok := (reachable_inv hr).chal_ok cid c hc
  refine ⟨?_, ?_⟩
  · intro hne
    unfold cancel_challenge
    rw [hc]
    simp only
    rw [if_pos hne]
  · intro hcr hact hdist
    have hbd : (st.escrow.balances cid).getD 0 = c.total_pool := by
      rw [hok.bal_act hact hdist]
      by_cases h0 : c.total_pool = 0
      · rw [if_pos h0, h0]; rfl
      · rw [if_neg h0]; rfl
    have hsum := single_le_sumBal st cid hok.lt
    have hg := (reachable_inv hr).custody_ge
    have hpool := hok.pool_eq hdist
    have hcust : ¬ st.custody < c.participants.length * c.entry_fee := by
      have hcm : c.participants.length * c.entry_fee = c.total_pool := by
        rw [hpool]; exact Nat.mul_comm _ _
      omega
    refine ⟨({ st with
                 challenges := fupdate cid
                   (some { c with is_active := false }) st.challenges,
                 accounts := credit_all c.participants c.entry_fee
                   st.accounts,
                 custody := st.custody -
                   c.participants.length * c.entry_fee,
                 escrow := { st.escrow with
                   balances := fupdate cid
                     ((st.escrow.balances cid).map (fun _ => 0))
                     st.escrow.balances } } : GState),
      { c with is_active := false }, ?_, ?_, rfl, ?_, ?_⟩
    · unfold cancel_challenge
      rw [hc]
      simp only
      rw [if_neg (by simp [hcr]), if_neg (by simp [hact]),
        if_neg (by simp [hdist])]
      unfold escrow_refund
      rw [if_neg hcust]
    · dsimp only
      rw [fupdate_self]
    · dsimp only
      rw [fupdate_self]
      cases st.escrow.balances cid <;> rfl
    · intro w hw
      dsimp only
      exact credit_all_mem _ _ w st.accounts hok.nodup hw

/-- Witness for C7: the non-creator 9 cannot cancel challenge 0 of stA3,
while creator 3 can; afterwards the accumulator is zero and participant 7
got the 1,000,000 entry fee back. -/
theorem c7_witness :
    cancel_challenge 9 0 stA3 = .error .NotAuthorized ∧
    (stC.escrow.balances 0).getD 0 = 0 ∧
    stC.accounts 7 = stA3.accounts 7 + 1000000 := by
  obtain ⟨hna, -⟩ :=
    @c7_cancel_authorization_and_refund stA3 9 0 cA3 reach_stA3 rfl
  obtain ⟨-, hsucc⟩ :=
    @c7_cancel_authorization_and_refund stA3 3 0 cA3 reach_stA3 rfl
  obtain ⟨st', c', hcan, hchal, hia, hbal, hacc⟩ := hsucc rfl rfl rfl
  have hst : stC = st' := by
    unfold stC
    rw [hcan]
    rfl
  rw [hst]
  exact ⟨hna (by decide), hbal, hacc 7 (by decide)⟩

/-- C8: every view function is a pure read of the committed state (in this
embedding each is a function of the state with no state output, so
side-effect freedom is by construction): on an unknown challenge_id all
five abort with NotFound, and on a known id each reports exactly the
stored fields. -/
theorem c8_queries_pure_and_total {st : GState} {cid : Nat} {addr : Addr} :
    (st.challenges cid = none →
      get_challenge_details cid st = .error .NotFound ∧
      get_participant_count cid st = .error .NotFound ∧
      is_participant cid addr st = .error .NotFound ∧
      has_submitted cid addr st = .error .NotFound ∧
      get_submission_votes cid addr st = .error .NotFound) ∧
    (∀ c, st.challenges cid = some c →
      get_challenge_details cid st = .ok (c.creator, c.name, c.description,
        c.entry_fee, c.start_time, c.end_time, c.total_pool,
        c.is_active) ∧
      get_participant_count cid st = .ok c.participants.length ∧
      is_participant cid addr st = .ok (c.participants.contains addr) ∧
      has_submitted cid addr st = .ok (c.submissions addr).isSome ∧
      ∀ s, c.submissions addr = some s →
        get_submission_votes cid addr st = .ok
          (s.votes_for, s.votes_against, s.is_verified)) := by
  constructor
  · intro h0
    refine ⟨?_, ?_, ?_, ?_, ?_⟩
    · unfold get_challenge_details
      rw [h0]
    · unfold get_participant_count
      rw [h0]
    · unfold is_participant
      rw [h0]
    · unfold has_submitted
      rw [h0]
    · unfold get_submission_votes
      rw [h0]
  · intro c hsome
    refine ⟨?_, ?_, ?_, ?_, ?_⟩
    · unfold get_challenge_details
      rw [hsome]
    · unfold get_participant_count
      rw [hsome]
    · unfold is_participant
      rw [hsome]
    · unfold has_submitted
      rw [hsome]
    · intro s hs
      unfold get_submission_votes
      rw [hsome]
      simp only
      rw [hs]

/-- Witness for C8 on stA3: known ids are reported from the stored state,
an unknown id aborts with NotFound. -/
theorem c8_witness :
    get_participant_count 0 stA3 = .ok 2 ∧
    is_participant 0 7 stA3 = .ok true ∧
    get_challenge_details 5 stA3 = .error .NotFound := by
  obtain ⟨hnone, -⟩ := @c8_queries_pure_and_total stA3 5 7
  obtain ⟨-, hsome⟩ := @c8_queries_pure_and_total stA3 0 7
  obtain ⟨-, hcount, hpart, -, -⟩ := hsome cA3 rfl
  exact ⟨hcount, hpart, (hnone rfl).1⟩

/-- C9: create_challenge accepts entry_fee 0 (it performs no check and
always succeeds), but escrow::deposit rejects any non-positive amount with
InvalidAmount, so no join of a zero-fee challenge can ever return
successfully: when the join guards pass it aborts with InvalidAmount from
the deposit step, and in every other case it aborts even earlier. -/
theorem c9_zero_fee_challenge_unjoinable {st : GState} {p creator : Addr}
    {cid now : Nat} {c : Challenge} (hc : st.challenges cid = some c)
    (hfee : c.entry_fee = 0) :
    (∀ name description duration_days, ∃ st2,
      create_challenge creator name description 0 duration_days now st =
        .ok st2) ∧
    (∀ st', join_challenge p cid now st ≠ .ok st') ∧
    (c.is_active = true → now < c.end_time → p ∉ c.participants →
      join_challenge p cid now st = .error .InvalidAmount) := by
  refine ⟨fun name description duration_days => ⟨_, rfl⟩, ?_, ?_⟩
  · intro st' hjoin
    obtain ⟨-, -, -, hpos, -, -⟩ := join_challenge_ok hc hjoin
    rw [hfee] at hpos
    exact Nat.lt_irrefl 0 hpos
  · intro hact hlt hnm
    have hdep : escrow_deposit p cid c.entry_fee st =
        .error .InvalidAmount := by
      unfold escrow_deposit
      rw [if_pos hfee]
    unfold join_challenge
    rw [hc]
    simp only
    rw [if_neg (by simp [hact]), if_neg (Nat.not_le_of_lt hlt),
      if_neg hnm, hdep]

/-- Witness for C9: joining the zero-fee challenge 0 of stZ1 fails with
InvalidAmount even though every registry-side guard passes. -/
theorem c9_witness :
    join_challenge 7 0 5 stZ1 = .error .InvalidAmount := by
  obtain ⟨-, -, hinv⟩ :=
    @c9_zero_fee_challenge_unjoinable stZ1 7 4 0 5 cZ1 rfl rfl
  exact hinv rfl (by decide) (by decide)

/-- C10 (amended): cancel_challenge mutates only is_active on the
challenge record (total_pool, entry_fee, roster, submissions and
rewards_distributed are untouched; the escrow accumulator and external
balances change on the escrow side); distribute_rewards never checks
is_active, so on a cancelled challenge it still reaches escrow, where it
fails with InsufficientBalance when total_pool > 0 (the accumulator was
zeroed by the refund) and with NotInitialized when total_pool = 0 (no
deposit ever created the accumulator) — hence a cancelled challenge can
never transition to rewards_distributed = true. -/
theorem c10_cancel_frame_and_post_cancel_distribute {st : GState}
    {caller : Addr} {cid now : Nat} {c : Challenge} (hr : Reachable st)
    (hc : st.challenges cid = some c) :
    (∀ st', cancel_challenge caller cid st = .ok st' →
      ∃ c', st'.challenges cid = some c' ∧ c'.is_active = false ∧
        c'.total_pool = c.total_pool ∧ c'.entry_fee = c.entry_fee ∧
        c'.participants = c.participants ∧
        c'.submissions = c.submissions ∧
        c'.rewards_distributed = c.rewards_distributed) ∧
    (c.is_active = false → c.rewards_distributed = false →
      0 < c.total_pool → c.end_time < now →
      distribute_rewards cid now st = .error .InsufficientBalance) ∧
    (c.is_active = false → c.rewards_distributed = false →
      c.total_pool = 0 → c.end_time < now →
      distribute_rewards cid now st = .error .NotInitialized) ∧
    (c.is_active = false → c.rewards_distributed = false →
      c.total_pool = 0 → ∀ st2,
      distribute_rewards cid now st ≠ .ok st2) := by
  have hok := (reachable_inv hr).chal_ok cid c hc
  refine ⟨?_, ?_, ?_, ?_⟩
  · intro st' h
    obtain ⟨-, -, -, -, he⟩ := cancel_challenge_ok hc h
    subst he
    refine ⟨{ c with is_active := false }, ?_, rfl, rfl, rfl, rfl, rfl,
      rfl⟩
    dsimp only
    rw [fupdate_self]
  · intro hina hdist hpos hlt
    have hb := hok.bal_cancel hina hdist
    rw [if_neg (by omega)] at hb
    unfold distribute_rewards
    rw [hc]
    simp only
    rw [if_neg (Nat.not_le_of_lt hlt), if_neg (by simp [hdist])]
    unfold escrow_distribute
    rw [hb]
    simp only
    rw [if_pos hpos]
  · intro hina hdist h0 hlt
    have hb := hok.bal_cancel hina hdist
    rw [if_pos h0] at hb
    unfold distribute_rewards
    rw [hc]
    simp only
    rw [if_neg (Nat.not_le_of_lt hlt), if_neg (by simp [hdist])]
    unfold escrow_distribute
    rw [hb]
  · intro hina hdist h0 st2 hok2
    obtain ⟨-, -, st1, hd, -⟩ := distribute_rewards_ok hc hok2
    obtain ⟨escrowed, hbal, -, -, -⟩ := escrow_distribute_ok hd
    have hb := hok.bal_cancel hina hdist
    rw [if_pos h0] at hb
    rw [hb] at hbal
    exact Option.noConfusion hbal

/-- Counterexample for C10 as stated: stK2 is a reachable state holding a
cancelled challenge (is_active = false, rewards_distributed = false) with
total_pool = 0, past whose end_time (86,400) distribute_rewards does not
set rewards_distributed = true but aborts with NotInitialized, because no
deposit ever created the escrow accumulator. -/
theorem c10_counterexample :
    Reachable stK2 ∧
    (stK2.challenges 0).map
      (fun c => (c.is_active, c.total_pool, c.rewards_distributed)) =
      some (false, 0, false) ∧
    cK2.end_time < 86401 ∧
    distribute_rewards 0 86401 stK2 = .error .NotInitialized :=
  ⟨reach_stK2, by decide, by decide, rfl⟩

/-- Witness for the amended C10: on the cancelled funded challenge of stC
a later distribute call fails with InsufficientBalance, and on the
cancelled empty challenge of stK2 it fails with NotInitialized. -/
theorem c10_witness :
    distribute_rewards 0 2592001 stC = .error .InsufficientBalance ∧
    distribute_rewards 0 86401 stK2 = .error .NotInitialized := by
  obtain ⟨-, h2, -, -⟩ :=
    @c10_cancel_frame_and_post_cancel_distribute stC 0 0 2592001 cC
      reach_stC rfl
  obtain ⟨-, -, h3, -⟩ :=
    @c10_cancel_frame_and_post_cancel_distribute stK2 0 0 86401 cK2
      reach_stK2 rfl
  exact ⟨h2 rfl rfl (by decide) (by decide), h3 rfl rfl rfl (by decide)⟩
